import Mathlib

/-!
Shallow embedding of the resource command module
(`src/command_modules/azure-cli-resource/azure/cli/command_modules/resource/custom.py`).

Python strings become `String`; optional string arguments whose use sites only
test truthiness become plain strings with `""` standing for both `None` and the
empty string (the two are indistinguishable at every such use site).  The
`api_version` constructor argument is tested with `is None`, so it stays an
`Option String`.  Fallible code returns `Except CLIError`.  The remote provider
catalog (`rcf.providers.get`) is passed in as a function from namespace to
`Provider`.
-/

deriving instance DecidableEq for Except

namespace AzureResource

/-- The distinct error raise sites of the module (and of the modelled core
helpers), named after the error kinds of the documentation. -/
inductive CLIError where
  | InvalidResourceId (id : String)
  | UnknownResourceType (t : String)
  | NoApiVersionAvailable (t : String)
  | AmbiguousResourceReference
  | RedundantResourceGroup (rg : String)
  | ConflictingFilter
  | SameSubscriptionRequired
  | SameGroupRequired
deriving DecidableEq

/-- A single quote character, used inside the OData filter strings. -/
def sq : String := "\x27"

/-- Whether `pat` occurs at the head of `l` (Python substring search helper). -/
def leadEq : List Char → List Char → Bool
  | [], _ => true
  | _ :: _, [] => false
  | a :: as, b :: bs => a == b && leadEq as bs

/-- Whether `pat` occurs anywhere in `l` (Python `in` on strings). -/
def hasSubList (pat : List Char) : List Char → Bool
  | [] => leadEq pat []
  | b :: bs => leadEq pat (b :: bs) || hasSubList pat bs

/-- Python `pat in s` substring containment. -/
def hasSubstr (s pat : String) : Bool := hasSubList pat.toList s.toList

/-- Python `s.lower()` (ASCII case folding, which is all the module relies on). -/
def strLower (s : String) : String := String.mk (s.toList.map Char.toLower)

/-- Python `s.split(sep)` on a one-character separator, on char lists. -/
def splitCharList (sep : Char) : List Char → List (List Char)
  | [] => [[]]
  | c :: cs =>
    let r := splitCharList sep cs
    if c == sep then [] :: r
    else (c :: r.headD []) :: r.tail

/-- Python `s.split(sep)` on a one-character separator. -/
def pySplit (sep : Char) (s : String) : List String :=
  (splitCharList sep s.toList).map (fun l => String.mk l)

/-- Python `s[-1] == c` for a nonempty string (`false` when empty). -/
def lastCharIs (c : Char) (s : String) : Bool :=
  match s.toList.getLast? with
  | some d => d == c
  | none => false

/-- Python `s[0:-1]`. -/
def strDropLast (s : String) : String := String.mk s.toList.dropLast

/-- Python join of the filter clauses on the literal and-separator. -/
def joinAnd : List String → String
  | [] => ""
  | [x] => x
  | x :: y :: xs => x ++ " and " ++ joinAnd (y :: xs)

/-! ## Provider catalog and API-version resolution (`_ResourceUtils._resolve_api_version`) -/

/-- One resource-type entry of a provider catalog: its declared name and its
ordered list of api-version strings. -/
structure ResourceType where
  resource_type : String
  api_versions : List String
deriving DecidableEq

/-- A provider catalog: the list of declared resource types
(`rcf.providers.get(namespace).resource_types`). -/
structure Provider where
  resource_types : List ResourceType
deriving DecidableEq

/-- Python substring test for preview inside the lowercased version string. -/
def isPreviewVersion (v : String) : Bool := hasSubstr (strLower v) "preview"

/-- The catalog match predicate
`t.resource_type.lower() == resource_type_str.lower()`. -/
def typeMatches (resource_type_str : String) (t : ResourceType) : Bool :=
  strLower t.resource_type == strLower resource_type_str

/-- The effective type matched against the catalog: the first slash segment
of `parent_resource_path` when that is truthy, else `resource_type`. -/
def effType (parent_resource_path resource_type : String) : String :=
  if parent_resource_path != "" then (pySplit '/' parent_resource_path).headD ""
  else resource_type

/-- Body of `_ResourceUtils._resolve_api_version` after the effective type has
been computed: filter the catalog on the effective type, then pick the first
non-preview version, falling back to the first version, and raising when there
is no single match with a nonempty version list.  The two raise sites keep
their format arguments (`resource_type_str` for the not-found error,
`resource_type` for the unresolved error). -/
def resolve_matched (provider : Provider) (resource_type_str resource_type : String) :
    Except CLIError String :=
  match provider.resource_types.filter (typeMatches resource_type_str) with
  | [] => .error (.UnknownResourceType resource_type_str)
  | [t] =>
    if t.api_versions.isEmpty then .error (.NoApiVersionAvailable resource_type)
    else
      match t.api_versions.filter (fun v => !(isPreviewVersion v)) with
      | [] => .ok (t.api_versions.headD "")
      | v :: _ => .ok v
  | _ :: _ :: _ => .error (.NoApiVersionAvailable resource_type)

/-- Embeds `_ResourceUtils._resolve_api_version` with the provider catalog already fetched. -/
def resolve_api_version (provider : Provider) (parent_resource_path resource_type : String) :
    Except CLIError String :=
  resolve_matched provider (effType parent_resource_path resource_type) resource_type

/-! ## Resource-id parsing (modelled) and resolution by id
(`_ResourceUtils._resolve_api_version_by_id`) -/

/-- The parts of a fully qualified resource id, as produced by the core
helper `parse_resource_id`; absent optional parts are `""`. -/
structure ResourceIdParts where
  subscription : String := ""
  resource_group : String := ""
  «namespace» : String := ""
  type : String := ""
  name : String := ""
  child_type : String := ""
  child_name : String := ""
  grandchild_type : String := ""
  grandchild_name : String := ""
deriving DecidableEq

/-- Modelled from the spec: the segment-level part of `parse_resource_id`
(see below), mapping the slash-separated segments of an id to its structured
parts, or `none` when the segments do not follow the documented pattern. -/
def parse_segments : List String → Option ResourceIdParts
  | "" :: "subscriptions" :: sub :: "resourceGroups" :: rg :: "providers" :: ns ::
      ty :: nm :: rest =>
    if sub == "" || rg == "" || ns == "" || ty == "" || nm == "" then none
    else
      match rest with
      | [] =>
        some { subscription := sub, resource_group := rg, «namespace» := ns,
               type := ty, name := nm }
      | [ct, cn] =>
        if ct == "" || cn == "" then none
        else
          some { subscription := sub, resource_group := rg, «namespace» := ns,
                 type := ty, name := nm, child_type := ct, child_name := cn }
      | [ct, cn, gt, gn] =>
        if ct == "" || cn == "" || gt == "" || gn == "" then none
        else
          some { subscription := sub, resource_group := rg, «namespace» := ns,
                 type := ty, name := nm, child_type := ct, child_name := cn,
                 grandchild_type := gt, grandchild_name := gn }
      | _ => none
  | _ => none

/-- Modelled from the spec: `parse_resource_id` lives in the core library
(`azure.cli.core.commands.arm`), which is not part of these sources.  Per the
spec it parses
`/subscriptions/S/resourceGroups/G/providers/NS/TYPE/NAME[/CT/CN[/GT/GN]]`
into structured parts, purely syntactically, and fails with
`InvalidResourceId` when the minimum segments (subscription, resource group,
namespace, type, name) are missing; no partial results are returned. -/
def parse_resource_id (id : String) : Except CLIError ResourceIdParts :=
  match parse_segments (pySplit '/' id) with
  | some p => .ok p
  | none => .error (.InvalidResourceId id)

/-- Modelled from the spec: `is_valid_resource_id` from the core library is not
part of these sources; a resource id is valid exactly when it parses. -/
def is_valid_resource_id (id : String) : Bool :=
  match parse_resource_id id with
  | .ok _ => true
  | .error _ => false

/-- Embeds `_ResourceUtils._resolve_api_version_by_id`: parse the
id, derive `(parent, resource_type)` from the deepest present level, and
delegate to `_resolve_api_version` on the catalog of the parsed namespace. -/
def resolve_api_version_by_id (rcf : String → Provider) (resource_id : String) :
    Except CLIError String :=
  match parse_resource_id resource_id with
  | .error e => .error e
  | .ok parts =>
    if parts.grandchild_type != "" then
      resolve_api_version (rcf parts.«namespace»)
        (parts.type ++ "/" ++ parts.name ++ "/" ++ parts.child_type ++ "/" ++ parts.child_name)
        parts.grandchild_type
    else if parts.child_type != "" then
      resolve_api_version (rcf parts.«namespace») (parts.type ++ "/" ++ parts.name)
        parts.child_type
    else
      resolve_api_version (rcf parts.«namespace») "" parts.type

/-! ## Policy scope construction (`_build_policy_scope`) -/

/-- Embeds `_build_policy_scope`.  Both
optional arguments are used only through truthiness, so `""` stands for an
absent argument. -/
def build_policy_scope (subscription_id resource_group_name scope : String) :
    Except CLIError String :=
  if scope != "" then
    if resource_group_name != "" then .error (.RedundantResourceGroup resource_group_name)
    else .ok scope
  else if resource_group_name != "" then
    .ok ("/subscriptions/" ++ subscription_id ++ "/resourceGroups/" ++ resource_group_name)
  else
    .ok ("/subscriptions/" ++ subscription_id)

/-! ## OData filter construction (`_list_resources_odata_filter_builder`) -/

/-- The clauses produced by the tag branch of the filter builder, for a
tag with key `tag_name` and value `tag_value` (after the conflict check). -/
def tagClauses (tag_name tag_value : String) : List String :=
  if tag_name != "" then
    if lastCharIs '*' tag_name then
      ["startswith(tagname, " ++ sq ++ strDropLast tag_name ++ sq ++ ")"]
    else
      ["tagname eq " ++ sq ++ tag_name ++ sq] ++
        (if tag_value != "" then ["tagvalue eq " ++ sq ++ tag_value ++ sq] else [])
  else []

/-- Embeds `_list_resources_odata_filter_builder`.  A tag argument is a single-key
dict (or absent); the string form of the tag argument behaves like a key with
an empty value. -/
def list_resources_odata_filter_builder
    (resource_group_name resource_provider_namespace resource_type name : String)
    (tag : Option (String × String)) (location : String) : Except CLIError String :=
  let f1 := if resource_group_name != "" then
      ["resourceGroup eq " ++ sq ++ resource_group_name ++ sq] else []
  let f2 := if name != "" then ["name eq " ++ sq ++ name ++ sq] else []
  let f3 := if location != "" then ["location eq " ++ sq ++ location ++ sq] else []
  let f4 :=
    if resource_type != "" then
      if resource_provider_namespace != "" then
        ["resourceType eq " ++ sq ++ resource_provider_namespace ++ "/" ++ resource_type ++ sq]
      else
        ["resourceType eq " ++ sq ++ resource_type ++ sq]
    else []
  match tag with
  | none => .ok (joinAnd (f1 ++ f2 ++ f3 ++ f4))
  | some (tag_name, tag_value) =>
    if name != "" || location != "" then .error .ConflictingFilter
    else .ok (joinAnd (f1 ++ f2 ++ f3 ++ f4 ++ tagClauses tag_name tag_value))

/-! ## The resource-operations facade (`_ResourceUtils`) -/

/-- The state held by a constructed `_ResourceUtils` (its instance
attributes after `__init__` has run). -/
structure ResourceUtils where
  resource_group_name : String
  resource_provider_namespace : String
  parent_resource_path : String
  resource_type : String
  resource_name : String
  resource_id : String
  api_version : String
deriving DecidableEq

/-- The api-version step of `_ResourceUtils.__init__`: keep a caller-supplied
api version, otherwise resolve by id when an id was given, else by the
(possibly split) coordinates. -/
def init_api_version (rcf : String → Provider)
    («namespace» parent_resource_path resource_type resource_id : String)
    (api_version : Option String) : Except CLIError String :=
  match api_version with
  | some av => .ok av
  | none =>
    if resource_id != "" then resolve_api_version_by_id rcf resource_id
    else resolve_api_version (rcf «namespace») parent_resource_path resource_type

/-- Embeds `_ResourceUtils.__init__`: the exclusivity check between an explicit id
and the coordinate fields, the compound `namespace/type` split, and the
api-version resolution when no api version was supplied. -/
def ResourceUtils_init (rcf : String → Provider)
    (resource_group_name resource_provider_namespace parent_resource_path
     resource_type resource_name resource_id : String)
    (api_version : Option String) : Except CLIError ResourceUtils :=
  if (resource_id != "") ==
      (resource_group_name != "" || resource_type != "" || parent_resource_path != "" ||
       resource_provider_namespace != "" || resource_name != "") then
    .error .AmbiguousResourceReference
  else
    let ns_ty :=
      if resource_type != "" && resource_provider_namespace == "" &&
          parent_resource_path == "" then
        let parts := pySplit '/' resource_type
        if parts.length > 1 then ((parts.headD ""), (parts.getD 1 ""))
        else (resource_provider_namespace, resource_type)
      else (resource_provider_namespace, resource_type)
    match init_api_version rcf ns_ty.1 parent_resource_path ns_ty.2 resource_id
        api_version with
    | .error e => .error e
    | .ok av =>
      .ok { resource_group_name := resource_group_name,
            resource_provider_namespace := ns_ty.1,
            parent_resource_path := parent_resource_path,
            resource_type := ns_ty.2,
            resource_name := resource_name,
            resource_id := resource_id,
            api_version := av }

/-- The mutable fields of a `GenericResource` payload as used by
`_ResourceUtils.tag`; the opaque per-field payloads are modelled as strings,
the tag set as a key-value list. -/
structure GenericResource where
  location : String
  tags : List (String × String)
  plan : String
  properties : String
  kind : String
  managed_by : String
  sku : String
  identity : String
deriving DecidableEq

/-- The update payload built by `_ResourceUtils.tag(tags)` from the fetched
resource: `GenericResource(location=resource.location, tags=tags,
plan=resource.plan, properties=resource.properties, kind=resource.kind,
managed_by=resource.managed_by, sku=resource.sku,
identity=resource.identity)`. -/
def tag_parameters (resource : GenericResource) (tags : List (String × String)) :
    GenericResource :=
  { location := resource.location,
    tags := tags,
    plan := resource.plan,
    properties := resource.properties,
    kind := resource.kind,
    managed_by := resource.managed_by,
    sku := resource.sku,
    identity := resource.identity }

/-! ## Moving resources (`move_resource`) -/

/-- The single remote move request issued by `move_resource`:
`rcf.resources.move_resources(resources[0].resource_group, ids, target)`,
with the target split into its subscription and group components. -/
structure MoveCall where
  source_group : String
  ids : List String
  target_subscription : String
  target_group : String
deriving DecidableEq

/-- The id-validation loop of `move_resource`: each id must pass
`is_valid_resource_id`, and valid ids are parsed; the first invalid id
raises. -/
def parse_move_ids : List String → Except CLIError (List ResourceIdParts)
  | [] => .ok []
  | i :: rest =>
    match parse_resource_id i with
    | .ok p =>
      match parse_move_ids rest with
      | .ok ps => .ok (p :: ps)
      | .error e => .error e
    | .error _ => .error (.InvalidResourceId i)

/-- Python `len(set(l)) <= 1`: all elements of the list are equal. -/
def allSame : List String → Bool
  | [] => true
  | x :: xs => xs.all (fun y => y == x)

/-- Embeds `move_resource`:
validate and parse every id, require a single subscription and a single
resource group across the parsed ids, and issue one move request from the
shared group to the destination. -/
def move_resource (config_subscription_id : String) (ids : List String)
    (destination_group destination_subscription_id : String) :
    Except CLIError MoveCall :=
  match parse_move_ids ids with
  | .error e => .error e
  | .ok resources =>
    if !(allSame (resources.map (fun r => r.subscription))) then
      .error .SameSubscriptionRequired
    else if !(allSame (resources.map (fun r => r.resource_group))) then
      .error .SameGroupRequired
    else
      .ok { source_group := (resources.headD {}).resource_group,
            ids := ids,
            target_subscription :=
              if destination_subscription_id != "" then destination_subscription_id
              else config_subscription_id,
            target_group := destination_group }

/-! ## Concrete fixtures used by witnesses and counterexamples -/

/-- A provider catalog whose only type is `virtualMachines` with a preview
version first (the catalog of the end-to-end example in the spec). -/
def vmProvider : Provider :=
  { resource_types :=
      [{ resource_type := "virtualMachines",
         api_versions := ["2019-01-01-preview", "2018-01-01"] }] }

/-- A provider lookup that declares no resource types for any namespace. -/
def emptyCatalog : String → Provider := fun _ => { resource_types := [] }

/-- A provider catalog in which two distinct entries match the name
`widgets` case-insensitively. -/
def twoMatchProvider : Provider :=
  { resource_types :=
      [{ resource_type := "widgets", api_versions := ["2016-01-01"] },
       { resource_type := "Widgets", api_versions := ["2017-01-01"] }] }

/-- A well-formed top-level resource id used by the move witness. -/
def mid : String := "/subscriptions/S1/resourceGroups/G1/providers/N.S/widgets/w1"

/-! ## Helper lemmas -/

theorem filter_cons_decomp {α : Type} (p : α → Bool) :
    ∀ (l : List α) (v : α) (vs : List α), l.filter p = v :: vs →
      ∃ l1 l2, l = l1 ++ v :: l2 ∧ (∀ u ∈ l1, p u = false) ∧ p v = true := by
  intro l
  induction l with
  | nil => intro v vs h; simp at h
  | cons x xs ih =>
    intro v vs h
    cases hx : p x with
    | true =>
      rw [List.filter_cons_of_pos hx] at h
      obtain ⟨h1, h2⟩ := List.cons.inj h
      exact ⟨[], xs, by simp [h1], by simp, h1 ▸ hx⟩
    | false =>
      rw [List.filter_cons_of_neg (by simp [hx])] at h
      obtain ⟨l1, l2, hl, hall, hv⟩ := ih v vs h
      refine ⟨x :: l1, l2, by simp [hl], ?_, hv⟩
      intro u hu
      rcases List.mem_cons.mp hu with h | h
      · exact h ▸ hx
      · exact hall u h

theorem splitCharList_ne_nil (sep : Char) (l : List Char) : splitCharList sep l ≠ [] := by
  cases l with
  | nil => simp [splitCharList]
  | cons c cs => by_cases hc : c == sep <;> simp [splitCharList, hc]

theorem splitCharList_no_sep (sep : Char) :
    ∀ (l : List Char), ∀ seg ∈ splitCharList sep l, sep ∉ seg := by
  intro l
  induction l with
  | nil => intro seg hseg; simp [splitCharList] at hseg; simp [hseg]
  | cons c cs ih =>
    intro seg hseg
    by_cases hc : c == sep
    · simp only [splitCharList, hc, if_true] at hseg
      rcases List.mem_cons.mp hseg with h1 | h1
      · simp [h1]
      · exact ih seg h1
    · simp only [splitCharList, hc, if_false, Bool.false_eq_true] at hseg
      rcases List.mem_cons.mp hseg with h1 | h1
      · subst h1
        intro hmem
        rcases List.mem_cons.mp hmem with h2 | h2
        · exact hc (by simp [h2])
        · rcases hr : splitCharList sep cs with _ | ⟨h, t⟩
          · exact absurd hr (splitCharList_ne_nil sep cs)
          · rw [hr] at h2
            exact ih h (hr ▸ List.mem_cons_self h t) h2
      · rcases hr : splitCharList sep cs with _ | ⟨h, t⟩
        · exact absurd hr (splitCharList_ne_nil sep cs)
        · rw [hr] at h1
          exact ih seg (hr ▸ List.mem_cons_of_mem h h1)

theorem splitCharList_sep_append (sep : Char) (suf : List Char) :
    ∀ (pre : List Char), sep ∉ pre →
      splitCharList sep (pre ++ sep :: suf) = pre :: splitCharList sep suf := by
  intro pre
  induction pre with
  | nil => intro _; simp [splitCharList]
  | cons c cs ih =>
    intro hni
    have hc : c ≠ sep := fun h => hni (h ▸ List.mem_cons_self c cs)
    have hcs : sep ∉ cs := fun h => hni (List.mem_cons_of_mem c h)
    simp [splitCharList, ih hcs, show (c == sep) = false from by simp [hc]]

theorem strMk_toList (s : String) : String.mk s.toList = s := rfl

theorem strMk_data (s : String) : String.mk s.data = s := rfl

theorem pySplit_no_sep (sep : Char) (s : String) :
    ∀ t ∈ pySplit sep s, sep ∉ t.toList := by
  intro t ht
  simp only [pySplit, List.mem_map] at ht
  obtain ⟨seg, hseg, rfl⟩ := ht
  exact splitCharList_no_sep sep s.toList seg hseg

theorem pySplit_head_of_data (w t : String) (tail : List Char)
    (hw : w.toList = t.toList ++ '/' :: tail) (h : '/' ∉ t.toList) :
    (pySplit '/' w).headD "" = t := by
  have hsc : splitCharList '/' w.toList = t.toList :: splitCharList '/' tail := by
    rw [hw]; exact splitCharList_sep_append '/' tail t.toList h
  have hsc2 : splitCharList '/' w.data = t.toList :: splitCharList '/' tail := hsc
  simp [pySplit, hsc, hsc2, strMk_toList, strMk_data]

theorem ne_empty_of_data (w : String) (c : Char) (pre suf : List Char)
    (hw : w.toList = pre ++ c :: suf) : w ≠ "" := by
  intro he
  subst he
  have h0 : ("" : String).toList = [] := rfl
  rw [h0] at hw
  exact (List.cons_ne_nil c suf) (List.append_eq_nil.mp hw.symm).2

theorem parse_segments_type_mem (segs : List String) (parts : ResourceIdParts)
    (h : parse_segments segs = some parts) : parts.type ∈ segs := by
  unfold parse_segments at h
  split at h
  · split at h
    · exact absurd h (by simp)
    · split at h
      · obtain rfl : _ = parts := Option.some.inj h
        simp
      · split at h
        · exact absurd h (by simp)
        · obtain rfl : _ = parts := Option.some.inj h
          simp
      · split at h
        · exact absurd h (by simp)
        · obtain rfl : _ = parts := Option.some.inj h
          simp
      · exact absurd h (by simp)
  · exact absurd h (by simp)

theorem parse_type_no_slash (id : String) (parts : ResourceIdParts)
    (h : parse_resource_id id = .ok parts) : '/' ∉ parts.type.toList := by
  unfold parse_resource_id at h
  rcases hps : parse_segments (pySplit '/' id) with _ | p
  · rw [hps] at h; exact absurd h (by simp)
  · rw [hps] at h
    simp only [Except.ok.injEq] at h
    subst h
    exact pySplit_no_sep '/' id p.type (parse_segments_type_mem _ _ hps)

theorem data_concat_slash (t n : String) :
    (t ++ "/" ++ n).toList = t.toList ++ '/' :: n.toList := by
  show (t ++ "/" ++ n).data = t.data ++ '/' :: n.data
  simp [String.data_append, show ("/" : String).data = ['/'] from rfl]

theorem parse_error_shape (id : String) (e : CLIError)
    (h : parse_resource_id id = .error e) : e = .InvalidResourceId id := by
  unfold parse_resource_id at h
  rcases hps : parse_segments (pySplit '/' id) with _ | p
  · rw [hps] at h
    simp at h
    exact h.symm
  · rw [hps] at h
    simp at h

theorem resolve_matched_ne_ambiguous (provider : Provider) (ts ty : String) :
    resolve_matched provider ts ty ≠ .error .AmbiguousResourceReference := by
  unfold resolve_matched
  rcases provider.resource_types.filter (typeMatches ts) with _ | ⟨t, _ | ⟨u, rest⟩⟩
  · simp
  · cases h : t.api_versions.isEmpty
    · simp only [h, Bool.false_eq_true, if_false]
      rcases t.api_versions.filter (fun v => !(isPreviewVersion v)) with _ | ⟨w, ws⟩ <;> simp
    · simp [h]
  · simp

theorem resolve_api_version_ne_ambiguous (provider : Provider) (pp ty : String) :
    resolve_api_version provider pp ty ≠ .error .AmbiguousResourceReference :=
  resolve_matched_ne_ambiguous provider (effType pp ty) ty

theorem resolve_by_id_ne_ambiguous (rcf : String → Provider) (id : String) :
    resolve_api_version_by_id rcf id ≠ .error .AmbiguousResourceReference := by
  unfold resolve_api_version_by_id
  rcases hp : parse_resource_id id with e | p
  · have he := parse_error_shape id e hp
    simp [he]
  · show (if (p.grandchild_type != "") = true then
        resolve_api_version (rcf p.«namespace»)
          (p.type ++ "/" ++ p.name ++ "/" ++ p.child_type ++ "/" ++ p.child_name)
          p.grandchild_type
      else if (p.child_type != "") = true then
        resolve_api_version (rcf p.«namespace») (p.type ++ "/" ++ p.name) p.child_type
      else resolve_api_version (rcf p.«namespace») "" p.type) ≠
      .error .AmbiguousResourceReference
    split
    · exact resolve_api_version_ne_ambiguous _ _ _
    · split
      · exact resolve_api_version_ne_ambiguous _ _ _
      · exact resolve_api_version_ne_ambiguous _ _ _

theorem init_api_version_ne_ambiguous (rcf : String → Provider)
    (ns pp ty id : String) (api_version : Option String) :
    init_api_version rcf ns pp ty id api_version ≠ .error .AmbiguousResourceReference := by
  unfold init_api_version
  cases api_version with
  | some av => simp
  | none =>
    show (if (id != "") = true then resolve_api_version_by_id rcf id
          else resolve_api_version (rcf ns) pp ty) ≠ .error .AmbiguousResourceReference
    split
    · exact resolve_by_id_ne_ambiguous _ _
    · exact resolve_api_version_ne_ambiguous _ _ _

theorem init_tail_ne_ambiguous (x : Except CLIError String)
    (rg pp nm id : String) (p : String × String)
    (hx : x ≠ .error .AmbiguousResourceReference) :
    (match x with
     | .error e => (.error e : Except CLIError ResourceUtils)
     | .ok av => .ok { resource_group_name := rg, resource_provider_namespace := p.1,
                       parent_resource_path := pp, resource_type := p.2,
                       resource_name := nm, resource_id := id, api_version := av }) ≠
      .error .AmbiguousResourceReference := by
  cases x with
  | error e => simpa using hx
  | ok av => simp



theorem allSame_head (x : String) (xs : List String)
    (h : allSame (x :: xs) = true) : ∀ y ∈ x :: xs, y = x := by
  intro y hy
  rcases List.mem_cons.mp hy with h1 | h1
  · exact h1
  · simp only [allSame] at h
    have := List.all_eq_true.mp h y h1
    simpa using this

theorem allSame_pair (l : List String) (h : allSame l = true) :
    ∀ a ∈ l, ∀ b ∈ l, a = b := by
  intro a ha b hb
  cases l with
  | nil => simp at ha
  | cons x xs =>
    rw [allSame_head x xs h a ha, allSame_head x xs h b hb]

theorem allSame_false_of_ne (l : List String) (a b : String)
    (ha : a ∈ l) (hb : b ∈ l) (hab : a ≠ b) : allSame l = false := by
  cases hs : allSame l
  · rfl
  · exact absurd (allSame_pair l hs a ha b hb) hab

theorem parse_move_ids_mem :
    ∀ (ids : List String) (rs : List ResourceIdParts), parse_move_ids ids = .ok rs →
      ∀ i ∈ ids, ∃ p, parse_resource_id i = .ok p ∧ p ∈ rs := by
  intro ids
  induction ids with
  | nil => intro rs h i hi; simp at hi
  | cons j rest ih =>
    intro rs h i hi
    unfold parse_move_ids at h
    rcases hj : parse_resource_id j with e | p
    · rw [hj] at h; simp at h
    · rw [hj] at h
      rcases hrest : parse_move_ids rest with e | ps
      · rw [hrest] at h; simp at h
      · rw [hrest] at h
        simp at h
        subst h
        rcases List.mem_cons.mp hi with h1 | h1
        · exact ⟨p, h1 ▸ hj, List.mem_cons_self p ps⟩
        · obtain ⟨q, hq1, hq2⟩ := ih ps hrest i h1
          exact ⟨q, hq1, List.mem_cons_of_mem p hq2⟩

theorem parse_move_ids_invalid :
    ∀ (ids : List String), (∃ i ∈ ids, is_valid_resource_id i = false) →
      ∃ e, parse_move_ids ids = .error e := by
  intro ids
  induction ids with
  | nil => rintro ⟨i, hi, _⟩; simp at hi
  | cons j rest ih =>
    rintro ⟨i, hi, hv⟩
    unfold parse_move_ids
    rcases hj : parse_resource_id j with e | p
    · exact ⟨.InvalidResourceId j, rfl⟩
    · rcases List.mem_cons.mp hi with h1 | h1
      · subst h1
        unfold is_valid_resource_id at hv
        rw [hj] at hv
        simp at hv
      · obtain ⟨e, he⟩ := ih ⟨i, h1, hv⟩
        rw [he]
        exact ⟨e, rfl⟩

/-! ## Claims -/

/-- Claim C1: for every provider catalog, api-version resolution on the
effective type behaves as follows: no case-insensitive catalog match fails
with UnknownResourceType; a unique match with at least one non-preview
version yields the first non-preview version in catalog order; a unique
match whose versions are all preview yields the first declared version; a
unique match with no versions fails with NoApiVersionAvailable. -/
theorem resolve_api_version_cases (provider : Provider)
    (parent_resource_path resource_type : String) :
    (provider.resource_types.filter
        (typeMatches (effType parent_resource_path resource_type)) = [] →
      resolve_api_version provider parent_resource_path resource_type =
        .error (.UnknownResourceType (effType parent_resource_path resource_type))) ∧
    (∀ t, provider.resource_types.filter
        (typeMatches (effType parent_resource_path resource_type)) = [t] →
      ((∃ v ∈ t.api_versions, isPreviewVersion v = false) →
        ∃ v l1 l2, resolve_api_version provider parent_resource_path resource_type = .ok v ∧
          t.api_versions = l1 ++ v :: l2 ∧ isPreviewVersion v = false ∧
          ∀ u ∈ l1, isPreviewVersion u = true) ∧
      (t.api_versions ≠ [] → (∀ v ∈ t.api_versions, isPreviewVersion v = true) →
        ∃ vs, t.api_versions = t.api_versions.headD "" :: vs ∧
          resolve_api_version provider parent_resource_path resource_type =
            .ok (t.api_versions.headD "")) ∧
      (t.api_versions = [] →
        resolve_api_version provider parent_resource_path resource_type =
          .error (.NoApiVersionAvailable resource_type))) := by
  constructor
  · intro h
    unfold resolve_api_version resolve_matched
    rw [h]
  · intro t ht
    refine ⟨?_, ?_, ?_⟩
    · rintro ⟨v0, hv0mem, hv0⟩
      have hne : t.api_versions.filter (fun v => !(isPreviewVersion v)) ≠ [] := by
        intro hnil
        have := List.filter_eq_nil_iff.mp hnil v0 hv0mem
        simp [hv0] at this
      rcases hnpv : t.api_versions.filter (fun v => !(isPreviewVersion v)) with _ | ⟨w, ws⟩
      · exact absurd hnpv hne
      · obtain ⟨l1, l2, hdecomp, hall, hw⟩ := filter_cons_decomp _ _ _ _ hnpv
        have havne : t.api_versions ≠ [] := by rw [hdecomp]; simp
        have hemp : t.api_versions.isEmpty = false := by
          rcases hav : t.api_versions with _ | ⟨a, as⟩
          · exact absurd hav havne
          · rfl
        refine ⟨w, l1, l2, ?_, hdecomp, ?_, ?_⟩
        · unfold resolve_api_version resolve_matched
          rw [ht]
          simp [hemp, hnpv]
        · simpa using hw
        · intro u hu; simpa using hall u hu
    · intro hne hall
      have hnil : t.api_versions.filter (fun v => !(isPreviewVersion v)) = [] := by
        apply List.filter_eq_nil_iff.mpr
        intro a ha
        simp [hall a ha]
      rcases hav : t.api_versions with _ | ⟨a, as⟩
      · exact absurd hav hne
      · refine ⟨as, by simp, ?_⟩
        unfold resolve_api_version resolve_matched
        rw [ht]
        have hemp : t.api_versions.isEmpty = false := by rw [hav]; rfl
        rw [hav] at hnil
        simp [hemp, hnil, hav]
    · intro hnil
      unfold resolve_api_version resolve_matched
      rw [ht]
      simp [hnil]

/-- Witness for claim C1: on the catalog whose sole entry is
`virtualMachines` with a preview version first, resolution picks the first
non-preview version. -/
theorem resolve_api_version_cases_witness :
    ∃ v l1 l2, resolve_api_version vmProvider "" "virtualMachines" = .ok v ∧
      ["2019-01-01-preview", "2018-01-01"] = l1 ++ v :: l2 ∧ isPreviewVersion v = false ∧
      ∀ u ∈ l1, isPreviewVersion u = true :=
  ((resolve_api_version_cases vmProvider "" "virtualMachines").2
    { resource_type := "virtualMachines",
      api_versions := ["2019-01-01-preview", "2018-01-01"] } (by decide)).1 (by decide)

/-- Claim C2: when a nonempty parent type path is supplied, resolution
matches its first slash-delimited segment against the catalog, otherwise the
resource type itself; resolution by id with child or grandchild parts
matches the top-level type segment of the id; and on the end-to-end example
of the spec the result is the first non-preview version of the parent
type. -/
theorem resolve_effective_type (provider : Provider)
    (parent_resource_path resource_type : String) :
    (parent_resource_path ≠ "" →
      resolve_api_version provider parent_resource_path resource_type =
        resolve_matched provider ((pySplit '/' parent_resource_path).headD "") resource_type) ∧
    (resolve_api_version provider "" resource_type =
      resolve_matched provider resource_type resource_type) ∧
    (∀ rcf id parts, parse_resource_id id = .ok parts → parts.grandchild_type = "" →
      parts.child_type ≠ "" →
      resolve_api_version_by_id rcf id =
        resolve_matched (rcf parts.«namespace») parts.type parts.child_type) ∧
    (∀ rcf id parts, parse_resource_id id = .ok parts → parts.grandchild_type ≠ "" →
      resolve_api_version_by_id rcf id =
        resolve_matched (rcf parts.«namespace») parts.type parts.grandchild_type) ∧
    (resolve_api_version_by_id (fun _ => vmProvider)
        "/subscriptions/S/resourceGroups/G/providers/Microsoft.Compute/virtualMachines/VM1/extensions/EXT1" =
      .ok "2018-01-01") := by
  refine ⟨?_, ?_, ?_, ?_, by decide⟩
  · intro h
    unfold resolve_api_version effType
    simp [show (parent_resource_path != "") = true from by simpa using h]
  · unfold resolve_api_version effType
    simp
  · intro rcf id parts hp hgc hct
    have hns : '/' ∉ parts.type.toList := parse_type_no_slash id parts hp
    unfold resolve_api_version_by_id
    rw [hp]
    have hgcb : (parts.grandchild_type != "") = false := by simp [hgc]
    have hctb : (parts.child_type != "") = true := by simpa using hct
    simp only [hgcb, hctb, Bool.false_eq_true, if_false, if_true]
    unfold resolve_api_version
    congr 1
    have hw : (parts.type ++ "/" ++ parts.name).toList =
        parts.type.toList ++ '/' :: parts.name.toList := data_concat_slash _ _
    have hne : (parts.type ++ "/" ++ parts.name) ≠ "" :=
      ne_empty_of_data _ '/' parts.type.toList parts.name.toList hw
    unfold effType
    rw [if_pos (show ((parts.type ++ "/" ++ parts.name) != "") = true from by simpa using hne)]
    exact pySplit_head_of_data _ parts.type _ hw hns
  · intro rcf id parts hp hgc
    have hns : '/' ∉ parts.type.toList := parse_type_no_slash id parts hp
    unfold resolve_api_version_by_id
    rw [hp]
    have hgcb : (parts.grandchild_type != "") = true := by simpa using hgc
    simp only [hgcb, if_true]
    unfold resolve_api_version
    congr 1
    have hw : (parts.type ++ "/" ++ parts.name ++ "/" ++ parts.child_type ++ "/" ++
        parts.child_name).toList =
        parts.type.toList ++ '/' :: (parts.name.toList ++ '/' :: (parts.child_type.toList ++
          '/' :: parts.child_name.toList)) := by
      show _ = _
      simp [String.data_append, show ("/" : String).data = ['/'] from rfl, String.toList]
    have hne : (parts.type ++ "/" ++ parts.name ++ "/" ++ parts.child_type ++ "/" ++
        parts.child_name) ≠ "" :=
      ne_empty_of_data _ '/' parts.type.toList _ hw
    unfold effType
    rw [if_pos (by simpa using hne)]
    exact pySplit_head_of_data _ parts.type _ hw hns

/-- Witness for claim C2: with parent path `virtualMachines/VM1`, resolution
matches the catalog against `virtualMachines`, not the leaf. -/
theorem resolve_effective_type_witness :
    resolve_api_version vmProvider "virtualMachines/VM1" "extensions" =
      resolve_matched vmProvider "virtualMachines" "extensions" := by
  have h := (resolve_effective_type vmProvider "virtualMachines/VM1" "extensions").1 (by decide)
  rw [h]
  have h2 : (pySplit '/' "virtualMachines/VM1").headD "" = "virtualMachines" := by decide
  rw [h2]

/-- Claim C3: the scope builder fails with RedundantResourceGroup when both
an explicit scope and a resource group are supplied, returns the explicit
scope unchanged when only it is supplied, returns the resource-group scope
when only the group is supplied, and the subscription scope when both are
absent. -/
theorem build_policy_scope_cases (subscription_id resource_group_name scope : String) :
    (scope ≠ "" → resource_group_name ≠ "" →
      build_policy_scope subscription_id resource_group_name scope =
        .error (.RedundantResourceGroup resource_group_name)) ∧
    (scope ≠ "" → resource_group_name = "" →
      build_policy_scope subscription_id resource_group_name scope = .ok scope) ∧
    (scope = "" → resource_group_name ≠ "" →
      build_policy_scope subscription_id resource_group_name scope =
        .ok ("/subscriptions/" ++ subscription_id ++ "/resourceGroups/" ++ resource_group_name)) ∧
    (scope = "" → resource_group_name = "" →
      build_policy_scope subscription_id resource_group_name scope =
        .ok ("/subscriptions/" ++ subscription_id)) := by
  refine ⟨?_, ?_, ?_, ?_⟩ <;> intro h1 h2 <;> simp [build_policy_scope, h1, h2]

/-- Witness for claim C3: a subscription with only a resource group yields
the resource-group scope. -/
theorem build_policy_scope_cases_witness :
    build_policy_scope "sub" "g" "" =
      .ok ("/subscriptions/" ++ "sub" ++ "/resourceGroups/" ++ "g") :=
  (build_policy_scope_cases "sub" "g" "").2.2.1 rfl (by decide)

/-- Claim C4: with a tag predicate present, the filter builder fails with
ConflictingFilter exactly when a name or a location predicate is also
present; a tag predicate combined with only a resource-group predicate
succeeds. -/
theorem odata_tag_conflict (resource_group_name resource_provider_namespace resource_type
    name location tag_name tag_value : String) :
    (list_resources_odata_filter_builder resource_group_name resource_provider_namespace
        resource_type name (some (tag_name, tag_value)) location =
      .error .ConflictingFilter ↔ (name ≠ "" ∨ location ≠ "")) ∧
    (∃ s, list_resources_odata_filter_builder resource_group_name "" "" ""
        (some (tag_name, tag_value)) "" = .ok s) := by
  constructor
  · by_cases hn : name = "" <;> by_cases hl : location = "" <;>
      simp [list_resources_odata_filter_builder, hn, hl]
  · exact ⟨_, rfl⟩

/-- Witness for claim C4: a tag predicate together with a name predicate
fails with ConflictingFilter. -/
theorem odata_tag_conflict_witness :
    list_resources_odata_filter_builder "" "" "" "n" (some ("k", "v")) "" =
      .error .ConflictingFilter :=
  (odata_tag_conflict "" "" "" "n" "" "k" "v").1.mpr (Or.inl (by decide))

/-- Claim C5: a tag key ending in a star emits a startswith clause on the
key without its trailing star, ignoring the value; otherwise a tagname
clause is emitted, followed by a tagvalue clause exactly when the value is
nonempty; clauses are joined with a literal and-separator and an input with
no predicates yields the empty string. -/
theorem odata_filter_tag_clauses (resource_group_name tag_name tag_value : String) :
    (tag_name ≠ "" → lastCharIs '*' tag_name = true →
      list_resources_odata_filter_builder "" "" "" "" (some (tag_name, tag_value)) "" =
        .ok ("startswith(tagname, " ++ sq ++ strDropLast tag_name ++ sq ++ ")")) ∧
    (tag_name ≠ "" → lastCharIs '*' tag_name = false → tag_value = "" →
      list_resources_odata_filter_builder "" "" "" "" (some (tag_name, tag_value)) "" =
        .ok ("tagname eq " ++ sq ++ tag_name ++ sq)) ∧
    (tag_name ≠ "" → lastCharIs '*' tag_name = false → tag_value ≠ "" →
      list_resources_odata_filter_builder "" "" "" "" (some (tag_name, tag_value)) "" =
        .ok (("tagname eq " ++ sq ++ tag_name ++ sq) ++ " and " ++
             ("tagvalue eq " ++ sq ++ tag_value ++ sq))) ∧
    (resource_group_name ≠ "" → tag_name ≠ "" → lastCharIs '*' tag_name = true →
      list_resources_odata_filter_builder resource_group_name "" "" ""
          (some (tag_name, tag_value)) "" =
        .ok (("resourceGroup eq " ++ sq ++ resource_group_name ++ sq) ++ " and " ++
             ("startswith(tagname, " ++ sq ++ strDropLast tag_name ++ sq ++ ")"))) ∧
    (list_resources_odata_filter_builder "" "" "" "" none "" = .ok "") := by
  refine ⟨?_, ?_, ?_, ?_, by decide⟩
  · intro hk hstar
    simp [list_resources_odata_filter_builder, tagClauses, joinAnd,
      show (tag_name != "") = true from by simpa using hk, hstar]
  · intro hk hstar hv
    simp [list_resources_odata_filter_builder, tagClauses, joinAnd,
      show (tag_name != "") = true from by simpa using hk, hstar, hv]
  · intro hk hstar hv
    simp [list_resources_odata_filter_builder, tagClauses, joinAnd,
      show (tag_name != "") = true from by simpa using hk, hstar,
      show (tag_value != "") = true from by simpa using hv]
  · intro hg hk hstar
    simp [list_resources_odata_filter_builder, tagClauses, joinAnd,
      show (tag_name != "") = true from by simpa using hk, hstar,
      show (resource_group_name != "") = true from by simpa using hg]

/-- Witness for claim C5: the starred key emits the startswith clause and
the supplied value is ignored. -/
theorem odata_filter_tag_clauses_witness :
    list_resources_odata_filter_builder "" "" "" "" (some ("k*", "ignored")) "" =
      .ok ("startswith(tagname, " ++ sq ++ strDropLast "k*" ++ sq ++ ")") :=
  (odata_filter_tag_clauses "" "k*" "ignored").1 (by decide) (by decide)

/-- Claim C6: facade construction fails with AmbiguousResourceReference
exactly when the truthiness of the explicit id equals the truthiness of the
disjunction of the coordinate fields, that is when both an id and some
coordinate are supplied or neither is; otherwise it proceeds to api-version
resolution and never raises that error. -/
theorem resource_utils_init_exclusive (rcf : String → Provider)
    (resource_group_name resource_provider_namespace parent_resource_path
     resource_type resource_name resource_id : String) (api_version : Option String) :
    (ResourceUtils_init rcf resource_group_name resource_provider_namespace
        parent_resource_path resource_type resource_name resource_id api_version =
      .error .AmbiguousResourceReference) ↔
    ((resource_id ≠ "") ↔ (resource_group_name ≠ "" ∨ resource_type ≠ "" ∨
      parent_resource_path ≠ "" ∨ resource_provider_namespace ≠ "" ∨
      resource_name ≠ "")) := by
  have key : (((resource_id != "") ==
      (resource_group_name != "" || resource_type != "" || parent_resource_path != "" ||
       resource_provider_namespace != "" || resource_name != "")) = true) ↔
      ((resource_id ≠ "") ↔ (resource_group_name ≠ "" ∨ resource_type ≠ "" ∨
        parent_resource_path ≠ "" ∨ resource_provider_namespace ≠ "" ∨
        resource_name ≠ "")) := by
    rw [beq_iff_eq, Bool.eq_iff_iff]
    simp
    tauto
  unfold ResourceUtils_init
  by_cases hb : ((resource_id != "") ==
      (resource_group_name != "" || resource_type != "" || parent_resource_path != "" ||
       resource_provider_namespace != "" || resource_name != "")) = true
  · rw [if_pos hb]
    exact iff_of_true rfl (key.mp hb)
  · rw [if_neg hb]
    apply iff_of_false
    · apply init_tail_ne_ambiguous
      exact init_api_version_ne_ambiguous _ _ _ _ _ _
    · exact fun hr => hb (key.mpr hr)

/-- Witness for claim C6: supplying both an explicit id and a resource name
fails with AmbiguousResourceReference. -/
theorem resource_utils_init_exclusive_witness :
    ResourceUtils_init emptyCatalog "" "" "" "" "x" "id1" none =
      .error .AmbiguousResourceReference :=
  (resource_utils_init_exclusive emptyCatalog "" "" "" "" "x" "id1" none).mpr (by decide)

/-- Counterexample to claim C7 as stated: for the compound type
`Microsoft.Compute/virtualMachines/extensions` the constructor keeps only
the second slash-delimited segment `virtualMachines` as the resource type,
not the entire remainder `virtualMachines/extensions`. -/
theorem resource_utils_split_counterexample :
    ResourceUtils_init emptyCatalog "g" "" "" "Microsoft.Compute/virtualMachines/extensions"
        "n" "" (some "v") =
      .ok { resource_group_name := "g", resource_provider_namespace := "Microsoft.Compute",
            parent_resource_path := "", resource_type := "virtualMachines",
            resource_name := "n", resource_id := "", api_version := "v" } ∧
    ("virtualMachines" : String) ≠ "virtualMachines/extensions" := by
  constructor
  · decide
  · decide

/-- Claim C7 (amended): when the resource type is a compound string with at
least one slash and neither a namespace nor a parent path is given, the
namespace becomes the first slash-delimited segment and the resource type
becomes the second slash-delimited segment; any segments beyond the second
are dropped. -/
theorem resource_utils_init_split (rcf : String → Provider)
    (resource_group_name resource_type resource_name av : String)
    (h : (pySplit '/' resource_type).length > 1) :
    ResourceUtils_init rcf resource_group_name "" "" resource_type resource_name ""
        (some av) =
      .ok { resource_group_name := resource_group_name,
            resource_provider_namespace := (pySplit '/' resource_type).headD "",
            parent_resource_path := "",
            resource_type := (pySplit '/' resource_type).getD 1 "",
            resource_name := resource_name,
            resource_id := "",
            api_version := av } := by
  have hty : resource_type ≠ "" := by
    intro he
    subst he
    have h1 : (pySplit '/' "").length = 1 := by decide
    omega
  have htyb : (resource_type != "") = true := by simpa using hty
  unfold ResourceUtils_init
  rw [if_neg (by simp [htyb])]
  simp [htyb, h, init_api_version]

/-- Witness for claim C7 (amended): `a/b/c` splits into namespace `a` and
type `b`. -/
theorem resource_utils_init_split_witness :
    ResourceUtils_init emptyCatalog "g" "" "" "a/b/c" "n" "" (some "v") =
      .ok { resource_group_name := "g", resource_provider_namespace := "a",
            parent_resource_path := "", resource_type := "b",
            resource_name := "n", resource_id := "", api_version := "v" } :=
  (resource_utils_init_split emptyCatalog "g" "a/b/c" "n" "v" (by decide)).trans (by decide)

/-- Counterexample to claim C8 as stated: on a catalog in which two entries
match the effective type case-insensitively, resolution does fail (with the
NoApiVersionAvailable error), rather than proceeding with a matched list. -/
theorem resolve_multi_match_counterexample :
    (twoMatchProvider.resource_types.filter (typeMatches (effType "" "widgets"))).length = 2 ∧
    resolve_api_version twoMatchProvider "" "widgets" =
      .error (.NoApiVersionAvailable "widgets") := by
  constructor
  · decide
  · decide

/-- Claim C8 (amended): when more than one catalog entry matches the
effective type case-insensitively, api-version resolution fails with the
NoApiVersionAvailable error; it proceeds with a version list only in the
exactly-one-match case. -/
theorem resolve_multi_match_fails (provider : Provider)
    (parent_resource_path resource_type : String)
    (h : 1 < (provider.resource_types.filter
        (typeMatches (effType parent_resource_path resource_type))).length) :
    resolve_api_version provider parent_resource_path resource_type =
      .error (.NoApiVersionAvailable resource_type) := by
  unfold resolve_api_version resolve_matched
  rcases hf : provider.resource_types.filter
      (typeMatches (effType parent_resource_path resource_type)) with _ | ⟨a, _ | ⟨b, rest⟩⟩
  · rw [hf] at h; simp at h
  · rw [hf] at h; simp at h
  · rfl

/-- Witness for claim C8 (amended): the two-entry catalog fails with the
NoApiVersionAvailable error. -/
theorem resolve_multi_match_fails_witness :
    resolve_api_version twoMatchProvider "" "widgets" =
      .error (.NoApiVersionAvailable "widgets") :=
  resolve_multi_match_fails twoMatchProvider "" "widgets" (by decide)

/-- Claim C9: the update payload built by the tag operation keeps the
fetched location, plan, properties, kind, managedBy, sku and identity
fields, carries exactly the supplied tags, and equals the fetched resource
with only the tag set replaced. -/
theorem tag_parameters_frame (resource : GenericResource) (tags : List (String × String)) :
    (tag_parameters resource tags).location = resource.location ∧
    (tag_parameters resource tags).plan = resource.plan ∧
    (tag_parameters resource tags).properties = resource.properties ∧
    (tag_parameters resource tags).kind = resource.kind ∧
    (tag_parameters resource tags).managed_by = resource.managed_by ∧
    (tag_parameters resource tags).sku = resource.sku ∧
    (tag_parameters resource tags).identity = resource.identity ∧
    (tag_parameters resource tags).tags = tags ∧
    tag_parameters resource tags = { resource with tags := tags } :=
  ⟨rfl, rfl, rfl, rfl, rfl, rfl, rfl, rfl, rfl⟩

/-- Claim C10: for the move operation, an invalid id among the inputs, or
two parsed ids in different subscriptions, or two parsed ids in different
resource groups, each make the operation return an error (so no move request
is issued); otherwise the single issued move request carries the original id
list and its source group is the resource group shared by every parsed
id. -/
theorem move_resource_spec (config_subscription_id : String) (ids : List String)
    (destination_group destination_subscription_id : String) :
    ((∃ i ∈ ids, is_valid_resource_id i = false) →
      ∃ e, move_resource config_subscription_id ids destination_group
        destination_subscription_id = .error e) ∧
    ((∃ i ∈ ids, ∃ j ∈ ids, ∃ p q, parse_resource_id i = .ok p ∧
        parse_resource_id j = .ok q ∧ p.subscription ≠ q.subscription) →
      ∃ e, move_resource config_subscription_id ids destination_group
        destination_subscription_id = .error e) ∧
    ((∃ i ∈ ids, ∃ j ∈ ids, ∃ p q, parse_resource_id i = .ok p ∧
        parse_resource_id j = .ok q ∧ p.resource_group ≠ q.resource_group) →
      ∃ e, move_resource config_subscription_id ids destination_group
        destination_subscription_id = .error e) ∧
    (∀ call, move_resource config_subscription_id ids destination_group
        destination_subscription_id = .ok call →
      call.ids = ids ∧
      ∀ i ∈ ids, ∀ p, parse_resource_id i = .ok p →
        p.resource_group = call.source_group) := by
  refine ⟨?_, ?_, ?_, ?_⟩
  · intro hex
    obtain ⟨e, he⟩ := parse_move_ids_invalid ids hex
    exact ⟨e, by unfold move_resource; rw [he]⟩
  · rintro ⟨i, hi, j, hj, p, q, hpi, hqj, hpq⟩
    unfold move_resource
    rcases hpm : parse_move_ids ids with e | rs
    · exact ⟨e, rfl⟩
    · obtain ⟨p2, hp2, hp2m⟩ := parse_move_ids_mem ids rs hpm i hi
      obtain ⟨q2, hq2, hq2m⟩ := parse_move_ids_mem ids rs hpm j hj
      have hpe : p2 = p := by rw [hpi] at hp2; exact (Except.ok.inj hp2).symm
      have hqe : q2 = q := by rw [hqj] at hq2; exact (Except.ok.inj hq2).symm
      subst hpe
      subst hqe
      have hsub : allSame (rs.map (fun r => r.subscription)) = false :=
        allSame_false_of_ne _ _ _ (List.mem_map_of_mem _ hp2m)
          (List.mem_map_of_mem _ hq2m) (by simpa using hpq)
      exact ⟨.SameSubscriptionRequired, by simp [hsub]⟩
  · rintro ⟨i, hi, j, hj, p, q, hpi, hqj, hpq⟩
    unfold move_resource
    rcases hpm : parse_move_ids ids with e | rs
    · exact ⟨e, rfl⟩
    · obtain ⟨p2, hp2, hp2m⟩ := parse_move_ids_mem ids rs hpm i hi
      obtain ⟨q2, hq2, hq2m⟩ := parse_move_ids_mem ids rs hpm j hj
      have hpe : p2 = p := by rw [hpi] at hp2; exact (Except.ok.inj hp2).symm
      have hqe : q2 = q := by rw [hqj] at hq2; exact (Except.ok.inj hq2).symm
      subst hpe
      subst hqe
      have hgrp : allSame (rs.map (fun r => r.resource_group)) = false :=
        allSame_false_of_ne _ _ _ (List.mem_map_of_mem _ hp2m)
          (List.mem_map_of_mem _ hq2m) (by simpa using hpq)
      cases hs : allSame (rs.map (fun r => r.subscription))
      · exact ⟨.SameSubscriptionRequired, by simp [hs]⟩
      · exact ⟨.SameGroupRequired, by simp [hs, hgrp]⟩
  · intro call hcall
    unfold move_resource at hcall
    rcases hpm : parse_move_ids ids with e | rs
    · rw [hpm] at hcall; simp at hcall
    · rw [hpm] at hcall
      cases hs : allSame (rs.map (fun r => r.subscription))
      · simp [hs] at hcall
      · cases hg : allSame (rs.map (fun r => r.resource_group))
        · simp [hs, hg] at hcall
        · simp only [hs, hg, Bool.not_true, Bool.false_eq_true, if_false] at hcall
          have hc := Except.ok.inj hcall
          subst hc
          refine ⟨rfl, ?_⟩
          intro i hi p hp
          obtain ⟨p2, hp2, hp2m⟩ := parse_move_ids_mem ids rs hpm i hi
          have hpe : p2 = p := by rw [hp] at hp2; exact (Except.ok.inj hp2).symm
          subst hpe
          cases rs with
          | nil => simp at hp2m
          | cons r rest =>
            have hhead := allSame_head (r.resource_group) (rest.map (fun x => x.resource_group))
              (by simpa using hg) (p2.resource_group)
              (by simpa using List.mem_map_of_mem (fun x => x.resource_group) hp2m)
            exact hhead

/-- Witness for claim C10: a single well-formed id moves from its own
resource group. -/
theorem move_resource_spec_witness :
    (MoveCall.mk "G1" [mid] "cfg" "dest").ids = [mid] ∧
    ∀ i ∈ [mid], ∀ p, parse_resource_id i = .ok p →
      p.resource_group = (MoveCall.mk "G1" [mid] "cfg" "dest").source_group :=
  (move_resource_spec "cfg" [mid] "dest" "").2.2.2
    (MoveCall.mk "G1" [mid] "cfg" "dest") (by decide)

end AzureResource
